import Mathlib

/-!
Verification development for the bylis Baileys session manager
(`src/whatsapp/baileys.manager.ts`).

The development shallowly embeds the session-lifecycle state of the
`BaileysManager` class as a labelled transition system:
* `Session` mirrors the `Session` interface (the `WASocket | null` handle is
  modelled by `Option WASocketHandle`, only its nullness is observable here);
* `MState` holds the `sessions` map, the pending `setTimeout` reconnection
  timers, a clock, and the list of transport `logout()` calls issued;
* `step` gives the effect of each handler of the manager on that state.

Message handling (`handleMessagesUpsert`) and the bounded wait loop at the
end of `createSession` are pure data transformations and are embedded as
plain functions further below.
-/

/-- The two supported projects (`type Project = 'aiod' | 'wakhaflow'`). -/
inductive Project where
  | aiod
  | wakhaflow
deriving DecidableEq, Repr

/-- The session status strings `'pending' | 'connecting' | 'connected' | 'disconnected'`. -/
inductive Status where
  | pending
  | connecting
  | connected
  | disconnected
deriving DecidableEq, Repr

/-- String rendering of a `Status`, as stored in the JS `status` field. -/
def statusStr : Status → String
  | .pending => "pending"
  | .connecting => "connecting"
  | .connected => "connected"
  | .disconnected => "disconnected"

/-- Opaque token standing for a live `WASocket` object; the manager's state
only ever tests the handle against `null`. -/
structure WASocketHandle where
deriving DecidableEq, Repr

/-- JavaScript `x || null` / `x || undefined` on an optional string: the empty
string is falsy, so it collapses to `none` together with `null`/`undefined`. -/
def jsStrOrNone : Option String → Option String
  | some s => if s = "" then none else some s
  | none => none

/-- JavaScript `a || b` where `a` is an optional string and `b` a string:
returns `a`'s value when it is present and non-empty, else `b`. -/
def jsOrS : Option String → String → String
  | some s, b => if s = "" then b else s
  | none, b => b

-- Baileys `DisconnectReason` status codes, as enumerated in the manager's
-- debug log of a connection close.
namespace DisconnectReason

def loggedOut : Nat := 401

def restartRequired : Nat := 515

def connectionClosed : Nat := 428

def connectionLost : Nat := 408

def connectionReplaced : Nat := 440

def timedOut : Nat := 408

def badSession : Nat := 500

end DisconnectReason

/-- The reconnect decision of `handleConnectionUpdate`:
`const shouldReconnect = reason !== DisconnectReason.loggedOut` where
`reason` is the (possibly `undefined`) Boom status code. -/
def shouldReconnect (reason : Option Nat) : Bool :=
  match reason with
  | some r => r != DisconnectReason.loggedOut
  | none => true

/-- In-memory session record, mirroring the `Session` interface of the
manager field by field. -/
structure Session where
  socket : Option WASocketHandle
  qrCode : Option String
  status : Status
  phoneNumber : Option String
  verifiedName : Option String
  createdAt : Nat
  project : Project
  webhookUrl : Option String
deriving DecidableEq, Repr

/-- A pending `setTimeout(() => this.createSession(agencyId, {project, webhookUrl}), 5000)`
scheduled by the close branch of `handleConnectionUpdate`.  `webhookUrl`
carries the captured `session.webhookUrl || undefined` argument. -/
structure Timer where
  agencyId : String
  project : Project
  webhookUrl : Option String
  delayMs : Nat
  scheduledAt : Nat
deriving DecidableEq, Repr

/-- Manager state: the `sessions : Map<string, Session>` registry (as a
function map), the pending reconnection timers, a millisecond clock, and the
log of tenants on whose socket `logout()` was invoked. -/
structure MState where
  sessions : String → Option Session
  timers : List Timer
  now : Nat
  logouts : List String

/-- Initial state of a freshly constructed `BaileysManager`. -/
def init : MState :=
  { sessions := fun _ => none, timers := [], now := 0, logouts := [] }

/-- Update the registry entry for one tenant. -/
def setSession (st : MState) (aid : String) (s : Option Session) : MState :=
  { st with sessions := fun k => if k = aid then s else st.sessions k }

/-- The session object installed by `createSession` before the socket is
created (`socket: null, qrCode: null, status: 'connecting', ...` with
`project = options.project || 'aiod'` and `webhookUrl = options.webhookUrl || null`). -/
def newSession (st : MState) (pOpt : Option Project) (wOpt : Option String) : Session :=
  { socket := none
    qrCode := none
    status := .connecting
    phoneNumber := none
    verifiedName := none
    createdAt := st.now
    project := pOpt.getD .aiod
    webhookUrl := jsStrOrNone wOpt }

/-- Transition labels.  `createStart` is `createSession` up to and including
`this.sessions.set(agencyId, session)` (the record is registered before the
`await useMultiFileAuthState` / `makeWASocket` phase); `createFinishOk` /
`createFinishFail` are the resumption that assigns `session.socket` or, on a
socket-creation failure, marks the record `'disconnected'`.  `qr`, `openEv`
and `close` are the branches of `handleConnectionUpdate`; transport events
only fire for a record whose socket handle is live.  `timerFire` runs a
pending reconnection timer, `tick` advances the clock, `disconnect` is
`disconnectSession`. -/
inductive Label where
  | createStart (aid : String) (project : Option Project) (webhookUrl : Option String)
      (forceNewQR : Bool)
  | createFinishOk (aid : String)
  | createFinishFail (aid : String)
  | qr (aid : String) (dataUrl : String)
  | openEv (aid : String) (phone name : Option String)
  | close (aid : String) (reason : Option Nat)
  | timerFire (i : Nat)
  | tick (d : Nat)
  | disconnect (aid : String)
deriving DecidableEq, Repr

/-- One step of the manager.  Returns `none` when the label is not enabled in
the given state (the corresponding handler cannot run there). -/
def step (st : MState) : Label → Option MState
  | .createStart aid pOpt wOpt _force =>
      -- cleanup of any existing record (listeners removed, socket ended),
      -- then `this.sessions.set(agencyId, session)` with the fresh record
      some (setSession st aid (some (newSession st pOpt wOpt)))
  | .createFinishOk aid =>
      match st.sessions aid with
      | some s =>
          match s.socket, s.status with
          | none, .connecting => some (setSession st aid (some { s with socket := some ⟨⟩ }))
          | _, _ => none
      | none => none
  | .createFinishFail aid =>
      match st.sessions aid with
      | some s =>
          match s.socket, s.status with
          | none, .connecting => some (setSession st aid (some { s with status := .disconnected }))
          | _, _ => none
      | none => none
  | .qr aid dataUrl =>
      match st.sessions aid with
      | some s =>
          match s.socket with
          | some _ =>
              -- `session.qrCode = qrDataUrl; session.status = 'pending'`
              some (setSession st aid (some { s with qrCode := some dataUrl, status := .pending }))
          | none => none
      | none => none
  | .openEv aid phone name =>
      match st.sessions aid with
      | some s =>
          match s.socket with
          | some _ =>
              -- `session.status = 'connected'; session.qrCode = null;` then
              -- phone number / verified name read from the socket
              some (setSession st aid (some { s with
                status := .connected, qrCode := none,
                phoneNumber := phone, verifiedName := name }))
          | none => none
      | none => none
  | .close aid reason =>
      match st.sessions aid with
      | some s =>
          match s.socket with
          | some _ =>
              if shouldReconnect reason then
                -- socket ended and nulled, reconnection scheduled in 5000 ms
                some { setSession st aid
                        (some { s with status := .disconnected, socket := none }) with
                       timers := st.timers ++
                         [⟨aid, s.project, jsStrOrNone s.webhookUrl, 5000, st.now⟩] }
              else
                -- loggedOut: the record merely becomes 'disconnected'
                some (setSession st aid (some { s with status := .disconnected }))
          | none => none
      | none => none
  | .timerFire i =>
      match st.timers[i]? with
      | some t =>
          if t.scheduledAt + t.delayMs ≤ st.now then
            -- the callback runs `createSession(agencyId, {project, webhookUrl})`
            -- unconditionally; nothing checks the current registry entry
            some { setSession st t.agencyId
                     (some (newSession st (some t.project) t.webhookUrl)) with
                   timers := st.timers.eraseIdx i }
          else none
      | none => none
  | .tick d => some { st with now := st.now + d }
  | .disconnect aid =>
      match st.sessions aid with
      | some s =>
          match s.socket with
          | some _ =>
              -- `await session.socket.logout(); this.sessions.delete(agencyId)`
              some { setSession st aid none with logouts := st.logouts ++ [aid] }
          | none => some st
      | none => some st

/-- Run a list of labels from a state; `none` if some label is not enabled. -/
def runLabels (st : MState) : List Label → Option MState
  | [] => some st
  | l :: ls =>
      match step st l with
      | some st' => runLabels st' ls
      | none => none

/-- Reachability of manager states from a given state. -/
inductive Reaches : MState → MState → Prop where
  | refl {s : MState} : Reaches s s
  | tail {s t u : MState} {l : Label} : Reaches s t → step t l = some u → Reaches s u

/-- Result of `getSessionStatus`. -/
structure StatusResult where
  status : String
  phoneNumber : Option String
  verifiedName : Option String
  qrCode : Option String
deriving DecidableEq, Repr

/-- The operation `getSessionStatus(agencyId)`: a missing record yields the distinct
`'not_found'` result. -/
def getSessionStatus (st : MState) (aid : String) : StatusResult :=
  match st.sessions aid with
  | none => ⟨"not_found", none, none, none⟩
  | some s => ⟨statusStr s.status, s.phoneNumber, s.verifiedName, s.qrCode⟩

/-!
Embedding of `handleMessagesUpsert` (message normalization, project-specific
persistence, and forwarding).  The handler performs only external effects
(Supabase inserts, `fetch` POSTs, Supabase function invocation), so it is
embedded as a pure function from the looked-up session and the incoming
messages to the list of effects it issues, in order.
-/

/-- The `msg.key` of a `proto.IWebMessageInfo`: origin flag, sender JID, id. -/
structure MessageKey where
  fromMe : Bool
  remoteJid : Option String
  id : Option String
deriving DecidableEq, Repr

/-- The `extendedTextMessage` content. -/
structure ExtendedTextMessage where
  text : Option String
deriving DecidableEq, Repr

/-- The `imageMessage` content. -/
structure ImageMessage where
  caption : Option String
deriving DecidableEq, Repr

/-- The `msg.message` content: the three text sources read by the handler plus
the presence of an image message. -/
structure MessageContent where
  conversation : Option String
  extendedTextMessage : Option ExtendedTextMessage
  imageMessage : Option ImageMessage
deriving DecidableEq, Repr

/-- One inbound `proto.IWebMessageInfo` as read by the handler. -/
structure WebMessageInfo where
  key : MessageKey
  message : Option MessageContent
  messageTimestamp : Option Nat
deriving DecidableEq, Repr

/-- The characters of the transport address marker `'@s.whatsapp.net'`. -/
def sepChars : List Char := "@s.whatsapp.net".data

/-- JavaScript `String.prototype.replace` with a string pattern and `''`
replacement removes only the first occurrence of the pattern. -/
def replaceFirstSub (sep : List Char) : List Char → List Char
  | [] => []
  | c :: cs =>
      if sep.isPrefixOf (c :: cs) then (c :: cs).drop sep.length
      else c :: replaceFirstSub sep cs

/-- JavaScript `s.replace(pat, '')` for a string pattern `pat`: first occurrence only. -/
def jsReplaceFirst (s pat : String) : String :=
  ⟨replaceFirstSub pat.data s.data⟩

/-- Best-effort text extraction of the handler:
`msg.message?.conversation || msg.message?.extendedTextMessage?.text || msg.message?.imageMessage?.caption || ''`. -/
def extractText (m : WebMessageInfo) : String :=
  jsOrS (m.message.bind (·.conversation))
    (jsOrS (m.message.bind fun mm => mm.extendedTextMessage.bind (·.text))
      (jsOrS (m.message.bind fun mm => mm.imageMessage.bind (·.caption)) ""))

/-- The `message` object of the outbound webhook payload.  `fromAddr` is the
JSON field named `from` (a Lean keyword). -/
structure OutMessage where
  id : String
  fromAddr : String
  text : String
  timestamp : Option Nat
  type : String
deriving DecidableEq, Repr

/-- The outbound webhook payload shared by the custom-webhook and fallback
paths.  `store_id` / `agency_id` are `none` where the JS object holds
`undefined` (the field is then absent from the JSON). -/
structure WebhookPayload where
  source : String
  project : Project
  store_id : Option String
  agency_id : Option String
  message : OutMessage
deriving DecidableEq, Repr

/-- External effects issued by `handleMessagesUpsert`, in program order. -/
inductive Effect where
  | logEvent (agencyId : String) (eventType : String)
  | messagesInsert (agencyId : String) (waMessageId : String) (sender : String)
      (content : String)
  | fetchPost (url : String) (payload : WebhookPayload)
  | invokeWebhookWhatsappMessages (payload : WebhookPayload)
deriving DecidableEq, Repr

/-- The normalized `message` object built by both forwarding paths. -/
def outMessage (m : WebMessageInfo) : OutMessage :=
  { id := jsOrS m.key.id ""
    fromAddr := jsReplaceFirst (jsOrS m.key.remoteJid "") "@s.whatsapp.net"
    text := extractText m
    timestamp := m.messageTimestamp
    type := match m.message.bind (·.imageMessage) with
            | some _ => "image"
            | none => "text" }

/-- The effects of one loop iteration of `handleMessagesUpsert` for one
message, given the session looked up for the tenant (possibly absent). -/
def handleOneMessage (agencyId : String) (session : Option Session)
    (m : WebMessageInfo) : List Effect :=
  if m.key.fromMe then []
  else
    let text := extractText m
    let messageId := jsOrS m.key.id ""
    let persist : List Effect :=
      match session with
      | some s =>
          if s.project = .wakhaflow then []
          else [.messagesInsert agencyId messageId "client" text]
      | none => [.messagesInsert agencyId messageId "client" text]
    let fallback : Effect :=
      .invokeWebhookWhatsappMessages
        { source := "baileys"
          project := (session.map (·.project)).getD .aiod
          store_id := if session.map (·.project) = some Project.wakhaflow
                      then some agencyId else none
          agency_id := some agencyId
          message := outMessage m }
    let delivery : Effect :=
      match session with
      | some s =>
          match s.webhookUrl with
          | some u =>
              if u = "" then fallback
              else
                .fetchPost u
                  { source := "baileys"
                    project := s.project
                    store_id := if s.project = .wakhaflow then some agencyId else none
                    agency_id := if s.project = .aiod then some agencyId else none
                    message := outMessage m }
          | none => fallback
      | none => fallback
    .logEvent agencyId "messages.upsert" :: persist ++ [delivery]

/-- The handler `handleMessagesUpsert` over the whole `m.messages` array. -/
def handleMessagesUpsert (agencyId : String) (session : Option Session)
    (msgs : List WebMessageInfo) : List Effect :=
  (msgs.map (handleOneMessage agencyId session)).flatten

/-- Is an effect a delivery (custom webhook POST or fallback invocation)? -/
def isDelivery : Effect → Bool
  | .fetchPost _ _ => true
  | .invokeWebhookWhatsappMessages _ => true
  | _ => false

/-- Is an effect a custom-webhook POST? -/
def isCustomDelivery : Effect → Bool
  | .fetchPost _ _ => true
  | _ => false

/-- Is an effect a fallback invocation? -/
def isFallbackDelivery : Effect → Bool
  | .invokeWebhookWhatsappMessages _ => true
  | _ => false

/-- Is an effect a persistence insert into the aiod `messages` table? -/
def isPersist : Effect → Bool
  | .messagesInsert _ _ _ _ => true
  | _ => false

/-- Truthiness of `session?.webhookUrl`: a webhook is configured when the
session exists and its `webhookUrl` is a non-empty string. -/
def webhookConfigured (session : Option Session) : Bool :=
  match session with
  | some s =>
      match s.webhookUrl with
      | some u => !(u = "")
      | none => false
  | none => false

/-- Payloads delivered by a list of effects, on either path. -/
def deliveredPayloads (effs : List Effect) : List WebhookPayload :=
  effs.filterMap fun e =>
    match e with
    | .fetchPost _ p => some p
    | .invokeWebhookWhatsappMessages p => some p
    | _ => none

/-- Modelled from the spec: the spec-side text selection, "the first present
of plain text, extended-text body, or media caption, else the empty string",
read as first non-empty (JavaScript `||` treats an empty string as absent). -/
def specTextSelection (conversation extendedText caption : Option String) : String :=
  match jsStrOrNone conversation with
  | some c => c
  | none =>
      match jsStrOrNone extendedText with
      | some t => t
      | none =>
          match jsStrOrNone caption with
          | some cap => cap
          | none => ""

/-!
Embedding of the bounded wait at the end of `createSession`: a 1-second
polling interval (`maxPolls = 90`) plus a safety `setTimeout` at 95 seconds.
The registry contents the poll observes at second `t` are abstracted as a
function `obs : Nat → Option Session` (the transport and other handlers may
change the record arbitrarily between polls).
-/

/-- The snapshot `{sessionId, qrCode, status}` resolved by the wait. -/
structure WaitResult where
  sessionId : String
  qrCode : Option String
  status : String
deriving DecidableEq, Repr

/-- One poll-interval body at poll count `t` with a present session:
resolve on a truthy `qrCode`, then on `status === 'connected'`, then on
`pollCount >= maxPolls` with the current snapshot (`qrCode || null`,
`status || 'timeout'`).  Returns `none` when the poll does not resolve. -/
def pollCheck (sessionId : String) (cs : Session) (pollCount : Nat) : Option WaitResult :=
  match cs.qrCode with
  | some q =>
      if q = "" then
        if cs.status = .connected then some ⟨sessionId, none, "connected"⟩
        else if 90 ≤ pollCount then
          some ⟨sessionId, jsStrOrNone cs.qrCode, jsOrS (some (statusStr cs.status)) "timeout"⟩
        else none
      else some ⟨sessionId, some q, "pending"⟩
  | none =>
      if cs.status = .connected then some ⟨sessionId, none, "connected"⟩
      else if 90 ≤ pollCount then
        some ⟨sessionId, jsStrOrNone cs.qrCode, jsOrS (some (statusStr cs.status)) "timeout"⟩
      else none

/-- The safety timeout at 95 seconds: resolve with
`{sessionId, qrCode: currentSession?.qrCode || null, status: currentSession?.status || 'timeout'}`. -/
def safetyResult (sessionId : String) (obs : Nat → Option Session) : WaitResult :=
  match obs 95 with
  | some cs => ⟨sessionId, jsStrOrNone cs.qrCode, jsOrS (some (statusStr cs.status)) "timeout"⟩
  | none => ⟨sessionId, none, "timeout"⟩

/-- The polling loop: `fuel` remaining interval firings starting at poll
count `t`; when the fuel is exhausted the safety timeout resolves.  Returns
the resolution second together with the resolved snapshot. -/
def pollLoop (sessionId : String) (obs : Nat → Option Session) :
    Nat → Nat → Nat × WaitResult
  | 0, _ => (95, safetyResult sessionId obs)
  | fuel + 1, t =>
      match obs t with
      | some cs =>
          match pollCheck sessionId cs t with
          | some r => (t, r)
          | none => pollLoop sessionId obs fuel (t + 1)
      | none => pollLoop sessionId obs fuel (t + 1)

/-- The whole wait phase of `createSession`: interval polls at seconds
1..94, then the safety timeout at second 95. -/
def createSessionWait (sessionId : String) (obs : Nat → Option Session) :
    Nat × WaitResult :=
  pollLoop sessionId obs 94 1

/-!
Helper lemmas.
-/

theorem jsStrOrNone_ne_empty (w : Option String) : jsStrOrNone w ≠ some "" := by
  rcases w with _ | s
  · simp [jsStrOrNone]
  · by_cases h : s = "" <;> simp [jsStrOrNone, h]

theorem jsStrOrNone_of_ne_empty {w : Option String} (h : w ≠ some "") :
    jsStrOrNone w = w := by
  rcases w with _ | s
  · rfl
  · have hs : s ≠ "" := by intro hs; exact h (by rw [hs])
    simp [jsStrOrNone, hs]

theorem jsOrS_chain_eq_spec (o1 o2 o3 : Option String) :
    jsOrS o1 (jsOrS o2 (jsOrS o3 "")) = specTextSelection o1 o2 o3 := by
  rcases o1 with _ | a <;> rcases o2 with _ | b <;> rcases o3 with _ | c <;>
    simp only [jsOrS, specTextSelection, jsStrOrNone] <;> split_ifs <;> rfl

theorem extractText_eq_spec (m : WebMessageInfo) :
    extractText m =
      specTextSelection (m.message.bind (·.conversation))
        (m.message.bind fun mm => mm.extendedTextMessage.bind (·.text))
        (m.message.bind fun mm => mm.imageMessage.bind (·.caption)) :=
  jsOrS_chain_eq_spec _ _ _

theorem replaceFirstSub_append (sep : List Char) (hsep : sep ≠ []) :
    ∀ base : List Char,
      (∀ i, i < base.length → sep.isPrefixOf ((base ++ sep).drop i) = false) →
      replaceFirstSub sep (base ++ sep) = base := by
  intro base
  induction base with
  | nil =>
      intro _
      rcases sep with _ | ⟨c, cs⟩
      · exact absurd rfl hsep
      · show replaceFirstSub (c :: cs) (c :: cs) = []
        have hpre : (c :: cs).isPrefixOf (c :: cs) = true := by
          rw [ List.isPrefixOf_iff_prefix]
        simp [replaceFirstSub, hpre]
  | cons c bs ih =>
      intro h
      have h0 : sep.isPrefixOf (c :: (bs ++ sep)) = false := by
        have := h 0 (by simp)
        simpa using this
      show replaceFirstSub sep (c :: (bs ++ sep)) = c :: bs
      rw [replaceFirstSub, h0]
      simp only [Bool.false_eq_true, if_false]
      congr 1
      apply ih
      intro i hi
      have := h (i + 1) (by simpa using Nat.succ_lt_succ hi)
      simpa [List.drop_succ_cons] using this

/-- C6: messages flagged `fromMe` are discarded with no effects at all, and
every genuine inbound message is delivered through exactly one channel — the
custom webhook POST precisely when the session has a (truthy) `webhookUrl`,
the shared fallback function invocation otherwise — never both, never
neither; any custom POST goes to the session's own `webhookUrl`. -/
theorem message_single_delivery (aid : String) (session : Option Session)
    (m : WebMessageInfo) :
    (m.key.fromMe = true → handleOneMessage aid session m = []) ∧
    (m.key.fromMe = false →
      ((handleOneMessage aid session m).filter isDelivery).length = 1 ∧
      (handleOneMessage aid session m).any isCustomDelivery = webhookConfigured session ∧
      (handleOneMessage aid session m).any isFallbackDelivery = (!webhookConfigured session) ∧
      (∀ u p, Effect.fetchPost u p ∈ handleOneMessage aid session m →
        ∃ s, session = some s ∧ s.webhookUrl = some u ∧ u ≠ "")) := by
  constructor
  · intro h; simp [handleOneMessage, h]
  · intro h
    rcases session with _ | s
    · simp [handleOneMessage, h, isDelivery, isCustomDelivery, isFallbackDelivery,
        webhookConfigured]
    · rcases s with ⟨sock, qrc, stat, ph, vn, ca, proj, wu⟩
      rcases wu with _ | u
      · cases proj <;>
          simp [handleOneMessage, h, isDelivery, isCustomDelivery, isFallbackDelivery,
            webhookConfigured]
      · by_cases hu : u = "" <;> cases proj <;>
          simp [handleOneMessage, h, hu, isDelivery, isCustomDelivery, isFallbackDelivery,
            webhookConfigured]

/-- Witness for `message_single_delivery` at concrete inputs: an echo message
produces no effects, and a genuine message on a session with a webhook is
delivered exactly once, through the custom channel. -/
theorem message_single_delivery_witness :
    (handleOneMessage "t1"
        (some ⟨some ⟨⟩, none, .connected, none, none, 0, .aiod, some "https://w"⟩)
        ⟨⟨true, some "9@s.whatsapp.net", some "e1"⟩, none, none⟩ = []) ∧
    (((handleOneMessage "t1"
        (some ⟨some ⟨⟩, none, .connected, none, none, 0, .aiod, some "https://w"⟩)
        ⟨⟨false, some "9@s.whatsapp.net", some "m9"⟩, none, none⟩).filter isDelivery).length = 1) := by
  refine ⟨?_, ?_⟩
  · exact (message_single_delivery "t1"
      (some ⟨some ⟨⟩, none, .connected, none, none, 0, .aiod, some "https://w"⟩)
      ⟨⟨true, some "9@s.whatsapp.net", some "e1"⟩, none, none⟩).1 (by decide)
  · exact ((message_single_delivery "t1"
      (some ⟨some ⟨⟩, none, .connected, none, none, 0, .aiod, some "https://w"⟩)
      ⟨⟨false, some "9@s.whatsapp.net", some "m9"⟩, none, none⟩).2 (by decide)).1

/-- C10: an inbound event for a tenant with no registry record is still
processed: each non-echo message is persisted to the aiod `messages` store
and forwarded via the fallback invocation with `project` defaulted to
`aiod` and `agency_id` set. -/
theorem orphan_event_processed (aid : String) (m : WebMessageInfo)
    (h : m.key.fromMe = false) :
    handleOneMessage aid none m =
      [.logEvent aid "messages.upsert",
       .messagesInsert aid (jsOrS m.key.id "") "client" (extractText m),
       .invokeWebhookWhatsappMessages
         ⟨"baileys", .aiod, none, some aid, outMessage m⟩] := by
  simp [handleOneMessage, h]

/-- Witness for `orphan_event_processed` at a concrete message. -/
theorem orphan_event_processed_witness :
    handleOneMessage "t7" none
        ⟨⟨false, some "55@s.whatsapp.net", some "mid"⟩,
          some ⟨some "hello", none, none⟩, some 99⟩ =
      [.logEvent "t7" "messages.upsert",
       .messagesInsert "t7" (jsOrS (some "mid") "") "client"
         (extractText ⟨⟨false, some "55@s.whatsapp.net", some "mid"⟩,
           some ⟨some "hello", none, none⟩, some 99⟩),
       .invokeWebhookWhatsappMessages
         ⟨"baileys", .aiod, none, some "t7",
           outMessage ⟨⟨false, some "55@s.whatsapp.net", some "mid"⟩,
             some ⟨some "hello", none, none⟩, some 99⟩⟩] :=
  orphan_event_processed "t7"
    ⟨⟨false, some "55@s.whatsapp.net", some "mid"⟩,
      some ⟨some "hello", none, none⟩, some 99⟩ (by decide)

/-- Counterexample to C7: a wakhaflow session with no webhook delivers, on
the fallback path, a payload carrying the tenant id under BOTH `store_id`
and `agency_id` (the claim says never both), and with `conversation` present
as the empty string the text field is the extended-text body `"hi"`, not the
"first present" value `""`. -/
theorem payload_tenant_fields_cex :
    deliveredPayloads (handleOneMessage "t1"
        (some ⟨some ⟨⟩, none, .connected, none, none, 0, .wakhaflow, none⟩)
        ⟨⟨false, some "123@s.whatsapp.net", some "m1"⟩,
          some ⟨some "", some ⟨some "hi"⟩, none⟩, some 111⟩) =
      [⟨"baileys", .wakhaflow, some "t1", some "t1",
        ⟨"m1", "123", "hi", some 111, "text"⟩⟩] := by
  decide

/-- C7 amended: on the custom-webhook path the payload carries the tenant id
under exactly the project-appropriate field (`store_id` for wakhaflow,
`agency_id` for aiod, never both); on the fallback path `agency_id` is
always set and `store_id` is additionally set when the project is wakhaflow.
On both paths the message object's sender address has the first occurrence
of `'@s.whatsapp.net'` removed — which strips the suffix whenever the marker
occurs nowhere earlier — its text is the first non-empty of plain text,
extended-text body, media caption, else the empty string, its id is the raw
message id defaulted to the empty string, and its type is `image` exactly
when an image message is present. -/
theorem payload_shape (aid : String) (session : Option Session)
    (m : WebMessageInfo) (p : WebhookPayload) :
    (∀ u, Effect.fetchPost u p ∈ handleOneMessage aid session m →
       ((p.project = .wakhaflow → p.store_id = some aid ∧ p.agency_id = none) ∧
        (p.project = .aiod → p.store_id = none ∧ p.agency_id = some aid))) ∧
    (Effect.invokeWebhookWhatsappMessages p ∈ handleOneMessage aid session m →
       (p.agency_id = some aid ∧
        p.store_id = (if p.project = .wakhaflow then some aid else none))) ∧
    (p ∈ deliveredPayloads (handleOneMessage aid session m) →
       (p.message.text =
          specTextSelection (m.message.bind (·.conversation))
            (m.message.bind fun mm => mm.extendedTextMessage.bind (·.text))
            (m.message.bind fun mm => mm.imageMessage.bind (·.caption)) ∧
        p.message.id = jsOrS m.key.id "" ∧
        p.message.fromAddr = jsReplaceFirst (jsOrS m.key.remoteJid "") "@s.whatsapp.net" ∧
        p.message.type = (match m.message.bind (·.imageMessage) with
                          | some _ => "image"
                          | none => "text"))) ∧
    (∀ base : List Char,
       (∀ i, i < base.length → sepChars.isPrefixOf ((base ++ sepChars).drop i) = false) →
       (jsReplaceFirst ⟨base ++ sepChars⟩ "@s.whatsapp.net").data = base) := by
  refine ⟨?_, ?_, ?_, ?_⟩
  · intro u hmem
    by_cases h : m.key.fromMe
    · simp [handleOneMessage, h] at hmem
    · rcases session with _ | s
      · simp only [Bool.not_eq_true] at h
        simp [handleOneMessage, h] at hmem
      · rcases s with ⟨sock, qrc, stat, ph, vn, ca, proj, wu⟩
        simp only [Bool.not_eq_true] at h
        rcases wu with _ | w
        · cases proj <;> simp [handleOneMessage, h] at hmem
        · by_cases hw : w = ""
          · cases proj <;> simp [handleOneMessage, h, hw] at hmem
          · cases proj <;> simp [handleOneMessage, h, hw] at hmem <;>
              · obtain ⟨-, hp⟩ := hmem
                subst hp
                simp
  · intro hmem
    by_cases h : m.key.fromMe
    · simp [handleOneMessage, h] at hmem
    · simp only [Bool.not_eq_true] at h
      rcases session with _ | s
      · simp [handleOneMessage, h] at hmem
        subst hmem
        simp
      · rcases s with ⟨sock, qrc, stat, ph, vn, ca, proj, wu⟩
        rcases wu with _ | w
        · cases proj <;>
            · simp [handleOneMessage, h] at hmem
              subst hmem
              simp
        · by_cases hw : w = ""
          · cases proj <;>
              · simp [handleOneMessage, h, hw] at hmem
                subst hmem
                simp
          · cases proj <;> simp [handleOneMessage, h, hw] at hmem
  · intro hmem
    by_cases h : m.key.fromMe
    · simp [handleOneMessage, h, deliveredPayloads] at hmem
    · simp only [Bool.not_eq_true] at h
      rcases session with _ | s
      · simp [handleOneMessage, h, deliveredPayloads] at hmem
        subst hmem
        simp [outMessage, extractText_eq_spec]
      · rcases s with ⟨sock, qrc, stat, ph, vn, ca, proj, wu⟩
        rcases wu with _ | w
        · cases proj <;>
            · simp [handleOneMessage, h, deliveredPayloads] at hmem
              subst hmem
              simp [outMessage, extractText_eq_spec]
        · by_cases hw : w = ""
          · cases proj <;>
              · simp [handleOneMessage, h, hw, deliveredPayloads] at hmem
                subst hmem
                simp [outMessage, extractText_eq_spec]
          · cases proj <;>
              · simp [handleOneMessage, h, hw, deliveredPayloads] at hmem
                subst hmem
                simp [outMessage, extractText_eq_spec]
  · intro base hb
    show replaceFirstSub sepChars (base ++ sepChars) = base
    exact replaceFirstSub_append sepChars (by decide) base hb

/-- Witness for `payload_shape`: evaluated on a concrete aiod session with a
custom webhook and a concrete image message whose sender address is a
well-formed JID. -/
theorem payload_shape_witness :
    ((⟨"baileys", Project.aiod, none, some "t9",
        outMessage ⟨⟨false, some "777@s.whatsapp.net", some "mw"⟩,
          some ⟨none, none, some ⟨some "cap"⟩⟩, some 5⟩⟩ : WebhookPayload).message.fromAddr =
      jsReplaceFirst (jsOrS (some "777@s.whatsapp.net") "") "@s.whatsapp.net") ∧
    (jsReplaceFirst ⟨"777".data ++ sepChars⟩ "@s.whatsapp.net").data = "777".data := by
  constructor
  · exact ((payload_shape "t9"
      (some ⟨some ⟨⟩, none, .connected, none, none, 0, .aiod, some "https://w"⟩)
      ⟨⟨false, some "777@s.whatsapp.net", some "mw"⟩,
        some ⟨none, none, some ⟨some "cap"⟩⟩, some 5⟩
      ⟨"baileys", Project.aiod, none, some "t9",
        outMessage ⟨⟨false, some "777@s.whatsapp.net", some "mw"⟩,
          some ⟨none, none, some ⟨some "cap"⟩⟩, some 5⟩⟩).2.2.1 (by decide)).2.2.1
  · exact (payload_shape "t9"
      (some ⟨some ⟨⟩, none, .connected, none, none, 0, .aiod, some "https://w"⟩)
      ⟨⟨false, some "777@s.whatsapp.net", some "mw"⟩,
        some ⟨none, none, some ⟨some "cap"⟩⟩, some 5⟩
      ⟨"baileys", Project.aiod, none, some "t9",
        outMessage ⟨⟨false, some "777@s.whatsapp.net", some "mw"⟩,
          some ⟨none, none, some ⟨some "cap"⟩⟩, some 5⟩⟩).2.2.2 "777".data (by decide)

theorem pollCheck_sessionId {sid : String} {cs : Session} {t : Nat} {r : WaitResult}
    (h : pollCheck sid cs t = some r) : r.sessionId = sid := by
  rcases hq : cs.qrCode with _ | q <;>
    simp only [pollCheck, hq] at h <;>
    split_ifs at h <;>
    first
      | exact Option.noConfusion h
      | (injection h with h'; rw [← h'])

theorem safetyResult_sessionId (sid : String) (obs : Nat → Option Session) :
    (safetyResult sid obs).sessionId = sid := by
  unfold safetyResult
  rcases obs 95 with _ | cs <;> rfl

theorem pollLoop_fst_le (sid : String) (obs : Nat → Option Session) :
    ∀ fuel t, t + fuel ≤ 95 → (pollLoop sid obs fuel t).1 ≤ 95 := by
  intro fuel
  induction fuel with
  | zero => intro t _; simp [pollLoop]
  | succ n ih =>
      intro t ht
      unfold pollLoop
      rcases obs t with _ | cs
      · exact ih (t + 1) (by omega)
      · simp only
        rcases hpc : pollCheck sid cs t with _ | r
        · exact ih (t + 1) (by omega)
        · simpa using by omega

theorem pollLoop_sessionId (sid : String) (obs : Nat → Option Session) :
    ∀ fuel t, (pollLoop sid obs fuel t).2.sessionId = sid := by
  intro fuel
  induction fuel with
  | zero => intro t; simp [pollLoop, safetyResult_sessionId]
  | succ n ih =>
      intro t
      unfold pollLoop
      rcases obs t with _ | cs
      · exact ih (t + 1)
      · simp only
        rcases hpc : pollCheck sid cs t with _ | r
        · exact ih (t + 1)
        · simpa using pollCheck_sessionId hpc

theorem pollLoop_all_unresolved (sid : String) (obs : Nat → Option Session) :
    ∀ fuel t,
      (∀ u cs, t ≤ u → u < t + fuel → obs u = some cs → pollCheck sid cs u = none) →
      pollLoop sid obs fuel t = (95, safetyResult sid obs) := by
  intro fuel
  induction fuel with
  | zero => intro t _; rfl
  | succ n ih =>
      intro t h
      unfold pollLoop
      rcases hobs : obs t with _ | cs
      · exact ih (t + 1) (fun u cs hu hlt => h u cs (by omega) (by omega))
      · simp only
        rw [h t cs (Nat.le_refl t) (by omega) hobs]
        exact ih (t + 1) (fun u cs hu hlt => h u cs (by omega) (by omega))

/-- C8: the wait phase of `createSession` always resolves by the 95-second
safety bound, whatever the transport does to the observed record; its result
is a `(sessionId, qrCode, status)` snapshot carrying the requested session
id, and when no poll ever resolves (the transport never reports a pairing
code or a connection) the outcome is the safety-timeout snapshot — a normal
result, not an error. -/
theorem createSession_wait_bounded (sid : String) (obs : Nat → Option Session) :
    (createSessionWait sid obs).1 ≤ 95 ∧
    (createSessionWait sid obs).2.sessionId = sid ∧
    ((∀ u cs, 1 ≤ u → u ≤ 94 → obs u = some cs → pollCheck sid cs u = none) →
      createSessionWait sid obs = (95, safetyResult sid obs)) := by
  refine ⟨pollLoop_fst_le sid obs 94 1 (by omega), pollLoop_sessionId sid obs 94 1, ?_⟩
  intro h
  exact pollLoop_all_unresolved sid obs 94 1 (fun u cs hu hlt => h u cs hu (by omega))

/-- Witness for `createSession_wait_bounded`: with a registry that never
holds a record the wait resolves at second 95 with a plain timeout
snapshot. -/
theorem createSession_wait_bounded_witness :
    createSessionWait "s1" (fun _ => none) = (95, ⟨"s1", none, "timeout"⟩) := by
  have h := (createSession_wait_bounded "s1" (fun _ => none)).2.2
    (fun u cs _ _ hx => by exact absurd hx (by simp))
  simpa [safetyResult] using h

/-- The record-level invariant maintained by every handler: a null socket
only in the `connecting` initialization window or after a disconnect, a QR
code only while `pending` or after a disconnect, and a `webhookUrl` that is
never the (falsy) empty string. -/
def GoodSession (s : Session) : Prop :=
  (s.socket = none → s.status = .connecting ∨ s.status = .disconnected) ∧
  (s.qrCode ≠ none → s.status = .pending ∨ s.status = .disconnected) ∧
  s.webhookUrl ≠ some ""

/-- State invariant: every registered record is good. -/
def RegInv (st : MState) : Prop :=
  ∀ aid s, st.sessions aid = some s → GoodSession s

theorem good_newSession (st : MState) (pOpt : Option Project) (wOpt : Option String) :
    GoodSession (newSession st pOpt wOpt) :=
  ⟨fun _ => Or.inl rfl, fun hq => absurd rfl hq, jsStrOrNone_ne_empty wOpt⟩

theorem inv_set {st st' : MState} (h : RegInv st) (aid : String) (v : Option Session)
    (hsess : st'.sessions = (setSession st aid v).sessions)
    (hv : ∀ s, v = some s → GoodSession s) : RegInv st' := by
  intro a s hma
  rw [hsess] at hma
  simp only [setSession] at hma
  by_cases ha : a = aid
  · subst ha; rw [if_pos rfl] at hma; exact hv _ hma
  · rw [if_neg ha] at hma; exact h _ _ hma

theorem inv_step {st st' : MState} {l : Label} (h : RegInv st) (hs : step st l = some st') :
    RegInv st' := by
  cases l with
  | createStart aid pOpt wOpt force =>
      simp only [step, Option.some.injEq] at hs
      subst hs
      refine inv_set h aid _ rfl ?_
      intro s hsome
      injection hsome with h2
      subst h2
      exact good_newSession ..
  | createFinishOk aid =>
      rcases hsess : st.sessions aid with _ | s
      · simp [step, hsess] at hs
      · rcases hsock : s.socket with _ | sk
        · rcases hstat : s.status <;> simp [step, hsess, hsock, hstat] at hs
          subst hs
          refine inv_set h aid _ rfl ?_
          intro s' hsome
          injection hsome with h2
          subst h2
          have hg := h aid s hsess
          refine ⟨?_, ?_, hg.2.2⟩
          · intro hnone; simp at hnone
          · intro hq
            have hq' : s.qrCode ≠ none := by simpa using hq
            rcases hg.2.1 hq' with h' | h' <;> rw [hstat] at h' <;> exact absurd h' (by decide)
        · rcases hstat : s.status <;> simp [step, hsess, hsock, hstat] at hs
  | createFinishFail aid =>
      rcases hsess : st.sessions aid with _ | s
      · simp [step, hsess] at hs
      · rcases hsock : s.socket with _ | sk
        · rcases hstat : s.status <;> simp [step, hsess, hsock, hstat] at hs
          subst hs
          refine inv_set h aid _ rfl ?_
          intro s' hsome
          injection hsome with h2
          subst h2
          have hg := h aid s hsess
          exact ⟨fun _ => Or.inr rfl, fun _ => Or.inr rfl, hg.2.2⟩
        · rcases hstat : s.status <;> simp [step, hsess, hsock, hstat] at hs
  | qr aid dataUrl =>
      rcases hsess : st.sessions aid with _ | s
      · simp [step, hsess] at hs
      · rcases hsock : s.socket with _ | sk
        · simp [step, hsess, hsock] at hs
        · simp only [step, hsess, hsock, Option.some.injEq] at hs
          subst hs
          refine inv_set h aid _ rfl ?_
          intro s' hsome
          injection hsome with h2
          subst h2
          have hg := h aid s hsess
          refine ⟨?_, fun _ => Or.inl rfl, hg.2.2⟩
          intro hnone
          exact absurd hnone (by simp)
  | openEv aid phone name =>
      rcases hsess : st.sessions aid with _ | s
      · simp [step, hsess] at hs
      · rcases hsock : s.socket with _ | sk
        · simp [step, hsess, hsock] at hs
        · simp only [step, hsess, hsock, Option.some.injEq] at hs
          subst hs
          refine inv_set h aid _ rfl ?_
          intro s' hsome
          injection hsome with h2
          subst h2
          have hg := h aid s hsess
          refine ⟨?_, ?_, hg.2.2⟩
          · intro hnone
            exact absurd hnone (by simp)
          · intro hq
            exact absurd hq (by simp)
  | close aid reason =>
      rcases hsess : st.sessions aid with _ | s
      · simp [step, hsess] at hs
      · rcases hsock : s.socket with _ | sk
        · simp [step, hsess, hsock] at hs
        · by_cases hr : shouldReconnect reason <;>
            simp only [step, hsess, hsock, hr, if_true, if_false, Option.some.injEq,
              Bool.false_eq_true, Bool.true_eq_false] at hs
          · subst hs
            refine inv_set h aid _ rfl ?_
            intro s' hsome
            injection hsome with h2
            subst h2
            have hg := h aid s hsess
            exact ⟨fun _ => Or.inr rfl, fun _ => Or.inr rfl, hg.2.2⟩
          · subst hs
            refine inv_set h aid _ rfl ?_
            intro s' hsome
            injection hsome with h2
            subst h2
            have hg := h aid s hsess
            exact ⟨fun _ => Or.inr rfl, fun _ => Or.inr rfl, hg.2.2⟩
  | timerFire i =>
      rcases hget : st.timers[i]? with _ | t
      · simp [step, hget] at hs
      · by_cases hle : t.scheduledAt + t.delayMs ≤ st.now <;>
          simp only [step, hget, hle, if_true, if_false, Option.some.injEq] at hs
        · subst hs
          refine inv_set h t.agencyId _ rfl ?_
          intro s hsome
          injection hsome with h2
          subst h2
          exact good_newSession ..
        · exact absurd hs (by simp)
  | tick d =>
      simp only [step, Option.some.injEq] at hs
      subst hs
      intro a s hma
      exact h _ _ hma
  | disconnect aid =>
      rcases hsess : st.sessions aid with _ | s
      · simp only [step, hsess, Option.some.injEq] at hs
        subst hs
        exact h
      · rcases hsock : s.socket with _ | sk
        · simp only [step, hsess, hsock, Option.some.injEq] at hs
          subst hs
          exact h
        · simp only [step, hsess, hsock, Option.some.injEq] at hs
          subst hs
          refine inv_set h aid _ rfl ?_
          intro s' hsome
          exact absurd hsome (by simp)

theorem inv_init : RegInv init := by
  intro a s hma
  simp [init] at hma

theorem inv_reaches {st : MState} (h : Reaches init st) : RegInv st := by
  induction h with
  | refl => exact inv_init
  | tail hr hstep ih => exact inv_step ih hstep

theorem reaches_trans {a b c : MState} (h1 : Reaches a b) (h2 : Reaches b c) :
    Reaches a c := by
  induction h2 with
  | refl => exact h1
  | tail hr hstep ih => exact .tail ih hstep

theorem reaches_of_runLabels :
    ∀ (ls : List Label) (st st' : MState), runLabels st ls = some st' → Reaches st st' := by
  intro ls
  induction ls with
  | nil =>
      intro st st' h
      injection h with h
      rw [← h]
      exact .refl
  | cons l ls ih =>
      intro st st' h
      simp only [runLabels] at h
      rcases hstep : step st l with _ | st1
      · rw [hstep] at h; exact absurd h (by simp)
      · rw [hstep] at h
        exact reaches_trans (.tail .refl hstep) (ih st1 st' h)

/-- A concrete run: create a wakhaflow session with a webhook and let the
socket come up. -/
def trace1 : List Label :=
  [.createStart "a" (some .wakhaflow) (some "https://x") false, .createFinishOk "a"]

/-- State right after `createStart` alone (record registered, socket not yet
assigned). -/
def st1def : MState := (step init (.createStart "a" none none false)).getD init

/-- State after `trace1`. -/
def st2def : MState := (runLabels init trace1).getD init

/-- State after the transport then closes with reason 408 (timed out). -/
def st3def : MState := (step st2def (.close "a" (some 408))).getD init

/-- State 5000 ms later. -/
def st5def : MState := (step st3def (.tick 5000)).getD init

/-- State after the pending reconnection timer fires. -/
def st6def : MState := (step st5def (.timerFire 0)).getD init

/-- C1: on every connection close a reconnection timer for the same tenant
is appended if and only if the close reason differs from the logged-out
code, with the fixed 5000 ms delay (on logged-out the timers are untouched);
a timer only fires once its delay has elapsed, and firing creates a fresh
session for its tenant; and timers are only ever added by a reconnectable
close. -/
theorem reconnect_policy :
    (∀ st aid reason st', step st (.close aid reason) = some st' →
       ∃ s, st.sessions aid = some s ∧
         st'.timers = (if shouldReconnect reason
                       then st.timers ++ [⟨aid, s.project, jsStrOrNone s.webhookUrl, 5000, st.now⟩]
                       else st.timers)) ∧
    (∀ reason, shouldReconnect reason = false ↔ reason = some DisconnectReason.loggedOut) ∧
    (∀ st i st', step st (.timerFire i) = some st' →
       ∃ t, st.timers[i]? = some t ∧ t.scheduledAt + t.delayMs ≤ st.now ∧
         st'.sessions t.agencyId = some (newSession st (some t.project) t.webhookUrl)) ∧
    (∀ st l st' t, step st l = some st' → t ∈ st'.timers →
       t ∈ st.timers ∨ ∃ aid reason, l = .close aid reason ∧ shouldReconnect reason = true ∧
         t.agencyId = aid ∧ t.delayMs = 5000 ∧ t.scheduledAt = st.now) := by
  refine ⟨?_, ?_, ?_, ?_⟩
  · intro st aid reason st' hs
    rcases hsess : st.sessions aid with _ | s
    · simp [step, hsess] at hs
    · rcases hsock : s.socket with _ | sk
      · simp [step, hsess, hsock] at hs
      · by_cases hr : shouldReconnect reason <;>
          simp only [step, hsess, hsock, hr, if_true, if_false, Option.some.injEq,
            Bool.false_eq_true, Bool.true_eq_false] at hs <;>
          subst hs <;> exact ⟨s, rfl, by simp [hr, setSession]⟩
  · intro reason
    rcases reason with _ | r
    · simp [shouldReconnect]
    · simp [shouldReconnect, DisconnectReason.loggedOut]
  · intro st i st' hs
    rcases hget : st.timers[i]? with _ | t
    · simp [step, hget] at hs
    · by_cases hle : t.scheduledAt + t.delayMs ≤ st.now <;>
        simp only [step, hget, hle, if_true, if_false, Option.some.injEq] at hs
      · subst hs
        exact ⟨t, rfl, hle, by simp [setSession]⟩
      · exact absurd hs (by simp)
  · intro st l st' t hs hmem
    cases l with
    | createStart aid pOpt wOpt force =>
        simp only [step, Option.some.injEq] at hs
        subst hs
        exact Or.inl hmem
    | createFinishOk aid =>
        rcases hsess : st.sessions aid with _ | s
        · simp [step, hsess] at hs
        · rcases hsock : s.socket with _ | sk
          · rcases hstat : s.status <;> simp [step, hsess, hsock, hstat] at hs
            subst hs
            exact Or.inl hmem
          · rcases hstat : s.status <;> simp [step, hsess, hsock, hstat] at hs
    | createFinishFail aid =>
        rcases hsess : st.sessions aid with _ | s
        · simp [step, hsess] at hs
        · rcases hsock : s.socket with _ | sk
          · rcases hstat : s.status <;> simp [step, hsess, hsock, hstat] at hs
            subst hs
            exact Or.inl hmem
          · rcases hstat : s.status <;> simp [step, hsess, hsock, hstat] at hs
    | qr aid dataUrl =>
        rcases hsess : st.sessions aid with _ | s
        · simp [step, hsess] at hs
        · rcases hsock : s.socket with _ | sk
          · simp [step, hsess, hsock] at hs
          · simp only [step, hsess, hsock, Option.some.injEq] at hs
            subst hs
            exact Or.inl hmem
    | openEv aid phone name =>
        rcases hsess : st.sessions aid with _ | s
        · simp [step, hsess] at hs
        · rcases hsock : s.socket with _ | sk
          · simp [step, hsess, hsock] at hs
          · simp only [step, hsess, hsock, Option.some.injEq] at hs
            subst hs
            exact Or.inl hmem
    | close aid reason =>
        rcases hsess : st.sessions aid with _ | s
        · simp [step, hsess] at hs
        · rcases hsock : s.socket with _ | sk
          · simp [step, hsess, hsock] at hs
          · by_cases hr : shouldReconnect reason <;>
              simp only [step, hsess, hsock, hr, if_true, if_false, Option.some.injEq,
                Bool.false_eq_true, Bool.true_eq_false] at hs <;> subst hs
            · rcases List.mem_append.mp hmem with hin | hin
              · exact Or.inl hin
              · rcases List.mem_singleton.mp hin with rfl
                exact Or.inr ⟨aid, reason, rfl, hr, rfl, rfl, rfl⟩
            · exact Or.inl hmem
    | timerFire i =>
        rcases hget : st.timers[i]? with _ | t'
        · simp [step, hget] at hs
        · by_cases hle : t'.scheduledAt + t'.delayMs ≤ st.now <;>
            simp only [step, hget, hle, if_true, if_false, Option.some.injEq] at hs
          · subst hs
            exact Or.inl (List.eraseIdx_subset _ _ hmem)
          · exact absurd hs (by simp)
    | tick d =>
        simp only [step, Option.some.injEq] at hs
        subst hs
        exact Or.inl hmem
    | disconnect aid =>
        rcases hsess : st.sessions aid with _ | s
        · simp only [step, hsess, Option.some.injEq] at hs
          subst hs
          exact Or.inl hmem
        · rcases hsock : s.socket with _ | sk
          · simp only [step, hsess, hsock, Option.some.injEq] at hs
            subst hs
            exact Or.inl hmem
          · simp only [step, hsess, hsock, Option.some.injEq] at hs
            subst hs
            exact Or.inl hmem

/-- Counterexample to C2: after a reconnectable close schedules a timer, the
tenant's record is superseded by a fresh `createSession` (webhook
`https://y`); when the 5-second delay elapses the stale timer nevertheless
executes and replaces the registry record with a session rebuilt from the
stale options (webhook `https://x`) — the scheduled attempt is not
abandoned. -/
theorem stale_timer_cex :
    ((runLabels init [.createStart "a" (some .aiod) (some "https://x") false,
        .createFinishOk "a", .close "a" (some 408),
        .createStart "a" (some .aiod) (some "https://y") false]).bind
          fun st => st.sessions "a") =
      some ⟨none, none, .connecting, none, none, 0, .aiod, some "https://y"⟩ ∧
    ((runLabels init [.createStart "a" (some .aiod) (some "https://x") false,
        .createFinishOk "a", .close "a" (some 408),
        .createStart "a" (some .aiod) (some "https://y") false,
        .tick 5000, .timerFire 0]).bind fun st => st.sessions "a") =
      some ⟨none, none, .connecting, none, none, 5000, .aiod, some "https://x"⟩ := by
  exact ⟨rfl, rfl⟩

/-- C2 amended: a scheduled reconnection timer is never cancelled — once its
delay has elapsed it fires unconditionally, whatever the current registry
holds for the tenant (superseded record, explicitly disconnected record, or
no record at all), and installs a fresh session built from the options
captured when it was scheduled. -/
theorem stale_timer_executes (st : MState) (i : Nat) (t : Timer)
    (hget : st.timers[i]? = some t) (hle : t.scheduledAt + t.delayMs ≤ st.now) :
    ∃ st', step st (.timerFire i) = some st' ∧
      st'.sessions t.agencyId = some (newSession st (some t.project) t.webhookUrl) ∧
      st'.timers = st.timers.eraseIdx i := by
  refine ⟨{ setSession st t.agencyId (some (newSession st (some t.project) t.webhookUrl)) with
            timers := st.timers.eraseIdx i }, ?_, ?_, rfl⟩
  · simp [step, hget, hle]
  · simp [setSession]

/-- Witness for `stale_timer_executes` at the concrete state reached by
`trace1` followed by a close and a 5000 ms tick. -/
theorem stale_timer_executes_witness :
    ∃ st', step st5def (.timerFire 0) = some st' ∧
      st'.sessions "a" = some (newSession st5def (some .wakhaflow) (some "https://x")) ∧
      st'.timers = st5def.timers.eraseIdx 0 :=
  stale_timer_executes st5def 0 ⟨"a", .wakhaflow, some "https://x", 5000, 0⟩ rfl (by decide)

/-- Counterexample to C3: right after `createSession` registers the fresh
record (before the socket is created) the record is reachable with a null
socket and status `connecting`, which is neither PENDING nor
DISCONNECTED. -/
theorem null_socket_status_cex :
    Reaches init st1def ∧
    st1def.sessions "a" = some (newSession init none none) ∧
    (newSession init none none).socket = none ∧
    (newSession init none none).status ≠ .pending ∧
    (newSession init none none).status ≠ .disconnected :=
  ⟨Reaches.tail Reaches.refl
      (show step init (.createStart "a" none none false) = some st1def from rfl),
   rfl, rfl, by decide, by decide⟩

/-- C3 amended: in every reachable state, a registered record with a null
socket is in state PENDING, DISCONNECTED, or CONNECTING (the transient
initialization state between registering the record and assigning the
socket). -/
theorem null_socket_status (st : MState) (h : Reaches init st) (aid : String)
    (s : Session) (hs : st.sessions aid = some s) (hnull : s.socket = none) :
    s.status = .pending ∨ s.status = .disconnected ∨ s.status = .connecting := by
  rcases (inv_reaches h aid s hs).1 hnull with h1 | h1
  · exact Or.inr (Or.inr h1)
  · exact Or.inr (Or.inl h1)

/-- Witness for `null_socket_status` at the record registered by a concrete
`createStart`. -/
theorem null_socket_status_witness :
    (newSession init none none).status = .pending ∨
    (newSession init none none).status = .disconnected ∨
    (newSession init none none).status = .connecting :=
  null_socket_status st1def
    (Reaches.tail Reaches.refl
      (show step init (.createStart "a" none none false) = some st1def from rfl))
    "a" (newSession init none none) rfl rfl

/-- A concrete run for the QR invariant: create, socket up, QR received,
then a reconnectable close. -/
def trace4 : List Label :=
  [.createStart "a" (some .aiod) none false, .createFinishOk "a",
   .qr "a" "QR", .close "a" (some 408)]

/-- State after `trace4`. -/
def st4def : MState := (runLabels init trace4).getD init

/-- Counterexample to C4: a close event does not clear `qrCode`, so a
reachable record holds a non-null pairing artifact while its state is
DISCONNECTED — not PENDING/AWAITING_PAIRING. -/
theorem qr_lifecycle_cex :
    Reaches init st4def ∧
    st4def.sessions "a" = some ⟨none, some "QR", .disconnected, none, none, 0, .aiod, none⟩ ∧
    ((some "QR" : Option String) ≠ none ∧ Status.disconnected ≠ Status.pending) :=
  ⟨reaches_of_runLabels trace4 init st4def rfl, rfl, by decide, by decide⟩

/-- C4 amended: in every reachable state a record's pairing artifact is
non-null only while its state is PENDING (covering AWAITING_PAIRING) or
DISCONNECTED — it may survive a disconnect — and it is always null once the
record is CONNECTED, so a non-null artifact and state CONNECTED never hold
simultaneously. -/
theorem qr_lifecycle (st : MState) (h : Reaches init st) (aid : String)
    (s : Session) (hs : st.sessions aid = some s) :
    (s.qrCode ≠ none → s.status = .pending ∨ s.status = .disconnected) ∧
    (s.status = .connected → s.qrCode = none) := by
  have hg := inv_reaches h aid s hs
  refine ⟨hg.2.1, ?_⟩
  intro hc
  by_contra hq
  rcases hg.2.1 hq with h' | h' <;> rw [hc] at h' <;> exact absurd h' (by decide)

/-- Witness for `qr_lifecycle` at the concrete state after `trace4`. -/
theorem qr_lifecycle_witness :
    ((some "QR" : Option String) ≠ none →
       Status.disconnected = .pending ∨ Status.disconnected = .disconnected) ∧
    (Status.disconnected = .connected → (some "QR" : Option String) = none) :=
  qr_lifecycle st4def (reaches_of_runLabels trace4 init st4def rfl) "a"
    ⟨none, some "QR", .disconnected, none, none, 0, .aiod, none⟩ rfl

/-- C5: when a reachable session closes with a reconnectable reason, the
scheduled timer is for the same tenant and the replacement session it will
install carries exactly the same `project` and `webhookUrl` as the record it
replaces. -/
theorem reconnect_preserves_options (st : MState) (h : Reaches init st) (aid : String)
    (s : Session) (reason : Option Nat) (st' : MState)
    (hsess : st.sessions aid = some s)
    (hstep : step st (.close aid reason) = some st')
    (hr : shouldReconnect reason = true) :
    ∃ t : Timer, st'.timers = st.timers ++ [t] ∧ t.agencyId = aid ∧
      ∀ st₂ : MState, (newSession st₂ (some t.project) t.webhookUrl).project = s.project ∧
        (newSession st₂ (some t.project) t.webhookUrl).webhookUrl = s.webhookUrl := by
  have hw : s.webhookUrl ≠ some "" := (inv_reaches h aid s hsess).2.2
  rcases hsock : s.socket with _ | sk
  · simp [step, hsess, hsock] at hstep
  · simp only [step, hsess, hsock, hr, if_true, Option.some.injEq] at hstep
    subst hstep
    refine ⟨⟨aid, s.project, jsStrOrNone s.webhookUrl, 5000, st.now⟩, rfl, rfl, ?_⟩
    intro st₂
    refine ⟨rfl, ?_⟩
    show jsStrOrNone (jsStrOrNone s.webhookUrl) = s.webhookUrl
    rw [jsStrOrNone_of_ne_empty (jsStrOrNone_ne_empty _), jsStrOrNone_of_ne_empty hw]

/-- Witness for `reconnect_preserves_options` at the wakhaflow session of
`trace1` closing with reason 408. -/
theorem reconnect_preserves_options_witness :
    ∃ t : Timer, st3def.timers = st2def.timers ++ [t] ∧ t.agencyId = "a" ∧
      ∀ st₂ : MState, (newSession st₂ (some t.project) t.webhookUrl).project = Project.wakhaflow ∧
        (newSession st₂ (some t.project) t.webhookUrl).webhookUrl = some "https://x" :=
  reconnect_preserves_options st2def (reaches_of_runLabels trace1 init st2def rfl) "a"
    ⟨some ⟨⟩, none, .connecting, none, none, 0, .wakhaflow, some "https://x"⟩
    (some 408) st3def rfl rfl (by decide)

/-- Witness for `reconnect_policy`: its close branch applied to the concrete
close of `trace1`'s session, and its firing branch applied to the concrete
timer fire after a 5000 ms tick. -/
theorem reconnect_policy_witness :
    (∃ s, st2def.sessions "a" = some s ∧
       st3def.timers = (if shouldReconnect (some 408)
                        then st2def.timers ++
                          [⟨"a", s.project, jsStrOrNone s.webhookUrl, 5000, st2def.now⟩]
                        else st2def.timers)) ∧
    (∃ t, st5def.timers[0]? = some t ∧ t.scheduledAt + t.delayMs ≤ st5def.now ∧
       st6def.sessions t.agencyId = some (newSession st5def (some t.project) t.webhookUrl)) :=
  ⟨reconnect_policy.1 st2def "a" (some 408) st3def rfl,
   reconnect_policy.2.2.1 st5def 0 st6def rfl⟩

/-- A concrete run for the disconnect behaviour: after a reconnectable close
the record's socket is null; `disconnectSession` then does nothing. -/
def trace9 : List Label :=
  [.createStart "a" (some .aiod) none false, .createFinishOk "a",
   .close "a" (some 408), .disconnect "a"]

/-- Counterexample to C9: disconnecting a tenant whose record has a null
socket (the state left by a reconnectable close) neither logs out nor
removes the record — a later `getSessionStatus` still finds it
(`disconnected`, not `not_found`), and no `logout()` was issued. -/
theorem disconnect_cex :
    ((runLabels init trace9).map fun st => (getSessionStatus st "a").status) =
      some "disconnected" ∧
    ((runLabels init trace9).map fun st => st.logouts) = some [] :=
  ⟨rfl, rfl⟩

/-- C9 amended: `disconnectSession` never fails and is a no-op when the
tenant has no record; it performs the graceful logout followed by registry
removal only when the record's socket handle is non-null — a record with a
null handle is left in the registry untouched. -/
theorem disconnect_behavior (st : MState) (aid : String) :
    ∃ st', step st (.disconnect aid) = some st' ∧
      (∀ s, st.sessions aid = some s → s.socket ≠ none →
         st'.sessions aid = none ∧ st'.logouts = st.logouts ++ [aid]) ∧
      (st.sessions aid = none → st' = st) ∧
      (∀ s, st.sessions aid = some s → s.socket = none → st' = st) := by
  rcases hsess : st.sessions aid with _ | s
  · refine ⟨st, by simp [step, hsess], ?_, fun _ => rfl, ?_⟩
    · intro s h0
      exact absurd h0 (by simp)
    · intro s h0
      exact absurd h0 (by simp)
  · rcases hsock : s.socket with _ | sk
    · refine ⟨st, by simp [step, hsess, hsock], ?_, ?_, fun _ _ _ => rfl⟩
      · intro s' h0 hne
        injection h0 with h0
        subst h0
        exact absurd hsock hne
      · intro h0
        exact absurd h0 (by simp)
    · refine ⟨{ setSession st aid none with logouts := st.logouts ++ [aid] },
        by simp [step, hsess, hsock], ?_, ?_, ?_⟩
      · intro s' h0 hne
        exact ⟨by simp [setSession], rfl⟩
      · intro h0
        exact absurd h0 (by simp)
      · intro s' h0 hzero
        injection h0 with h0
        subst h0
        rw [hsock] at hzero
        exact absurd hzero (by simp)

/-- Witness for `disconnect_behavior`: on the live session reached by
`trace1`, disconnect logs the tenant out and removes the record. -/
theorem disconnect_behavior_witness :
    ((step st2def (.disconnect "a")).getD init).sessions "a" = none ∧
    ((step st2def (.disconnect "a")).getD init).logouts = st2def.logouts ++ ["a"] := by
  obtain ⟨st', hstep, h1, h2, h3⟩ := disconnect_behavior st2def "a"
  have hx := h1 ⟨some ⟨⟩, none, .connecting, none, none, 0, .wakhaflow, some "https://x"⟩
    rfl (by decide)
  rw [hstep]
  exact hx
